import Mathlib

/-!
Shallow embedding of `src/lib/construct-metadata.ts`: page-metadata
construction and JSON-LD structured-data builders (Person, Article, FAQ,
Product, Breadcrumb).

Conventions of the embedding:
* JavaScript strings are Lean `String` (a list of characters); `undefined`
  optional values are `Option`.
* JavaScript truthiness on an optional string (`if (x) ...` where
  `x : string | undefined`) is "defined and not the empty string"; on an
  optional number it is "defined and not zero".
* The module-level configuration object `appConfig` and the two
  `process.env` verification variables are passed as explicit parameters,
  so every theorem is quantified over the configuration.
* JavaScript numbers are modelled as exact rationals `ℚ`.
-/

/- ============ generic string helpers ============ -/

theorem str_data_append (a b : String) : (a ++ b).data = a.data ++ b.data := by
  cases a; cases b; rfl

/-- Whitespace predicate used by JavaScript `String.prototype.trim`. -/
def isJsSpace (c : Char) : Bool := c.isWhitespace

/-- Character-list form of JavaScript `trim`: drop whitespace at both ends. -/
def trimChars (s : List Char) : List Char :=
  ((s.dropWhile isJsSpace).reverse.dropWhile isJsSpace).reverse

/-- JavaScript `s.trim()`. -/
def jsTrimStr (s : String) : String := String.mk (trimChars s.data)

/-- Truthiness of `string | undefined`: defined and non-empty. -/
def optIfTruthy (o : Option String) : Option String :=
  match o with
  | some s => if s = "" then none else some s
  | none => none

/-- JavaScript `a || b` for `a : string | undefined`, `b : string`. -/
def jsOrElse (a : Option String) (b : String) : String :=
  match a with
  | some s => if s = "" then b else s
  | none => b

/- ============ normalizePath ============ -/

/-- One step of the source's `s.replace("//", "/")`: replace the leftmost
occurrence of two consecutive slashes by a single slash, or return `none`
when there is no such occurrence. -/
def replaceFirstSlashes : List Char → Option (List Char)
  | [] => none
  | c :: rest =>
    if c = '/' ∧ rest.head? = some '/' then some (c :: rest.tail)
    else (replaceFirstSlashes rest).map (c :: ·)

/-- `true` iff the character list contains two consecutive slashes
(the source's `s.includes("//")`). -/
def hasDoubleSlash : List Char → Bool
  | [] => false
  | c :: rest => (c == '/' && rest.head? == some '/') || hasDoubleSlash rest

theorem replaceFirstSlashes_length :
    ∀ {s t : List Char}, replaceFirstSlashes s = some t → t.length < s.length := by
  intro s
  induction s with
  | nil => intro t h; simp [replaceFirstSlashes] at h
  | cons c rest ih =>
    intro t h
    simp only [replaceFirstSlashes] at h
    split at h
    · rename_i hc
      obtain ⟨hc1, hc2⟩ := hc
      cases rest with
      | nil => simp at hc2
      | cons r rs =>
        simp at hc2
        simp at h
        subst h
        simp
    · rcases Option.map_eq_some'.mp h with ⟨t', ht', rfl⟩
      have := ih ht'
      simp
      omega

theorem replaceFirstSlashes_none_iff {s : List Char} :
    replaceFirstSlashes s = none ↔ hasDoubleSlash s = false := by
  induction s with
  | nil => simp [replaceFirstSlashes, hasDoubleSlash]
  | cons c rest ih =>
    simp only [replaceFirstSlashes, hasDoubleSlash]
    split
    · rename_i hc
      obtain ⟨hc1, hc2⟩ := hc
      subst hc1
      simp [hc2]
    · rename_i hc
      have hfalse : (c == '/' && rest.head? == some '/') = false := by
        rw [Bool.eq_false_iff]
        simpa using hc
      rw [Option.map_eq_none', ih, hfalse, Bool.false_or]

/-- The source's `while (s.includes("//")) s = s.replace("//", "/")` loop. -/
def collapseSlashes (s : List Char) : List Char :=
  match h : replaceFirstSlashes s with
  | none => s
  | some t => collapseSlashes t
termination_by s.length
decreasing_by exact replaceFirstSlashes_length h

/-- The source's `if (!s.startsWith("/")) s = "/" + s`. -/
def ensureLeadingSlash (t : List Char) : List Char :=
  if t.head? = some '/' then t else '/' :: t

/-- `normalizePath` from the source: `undefined` and the empty string (both
falsy) give `"/"`; otherwise trim, ensure a leading slash, and collapse
doubled slashes. -/
def normalizePath (p : Option String) : String :=
  match p with
  | none => "/"
  | some str =>
    if str = "" then "/"
    else String.mk (collapseSlashes (ensureLeadingSlash (trimChars str.data)))

/-- `truncateDescription` from the source, with the `maxLength` parameter
explicit (the source defaults it to `MAX_DESCRIPTION_LENGTH = 160`). -/
def truncateDescription (desc : String) (maxLength : Nat) : String :=
  if desc.data.length ≤ maxLength then desc
  else String.mk (desc.data.take (maxLength - 3)) ++ "..."

def MAX_DESCRIPTION_LENGTH : Nat := 160

/- ============ lemmas about the slash-collapsing loop ============ -/

theorem replaceFirstSlashes_head {s t : List Char}
    (h : replaceFirstSlashes s = some t) : t.head? = s.head? := by
  cases s with
  | nil => simp [replaceFirstSlashes] at h
  | cons c rest =>
    simp only [replaceFirstSlashes] at h
    split at h
    · simp only [Option.some.injEq] at h
      subst h
      rfl
    · rcases Option.map_eq_some'.mp h with ⟨t', _, rfl⟩
      rfl

theorem collapseSlashes_spec :
    ∀ (n : Nat) (s : List Char), s.length ≤ n →
      hasDoubleSlash (collapseSlashes s) = false ∧
      (collapseSlashes s).head? = s.head? := by
  intro n
  induction n with
  | zero =>
    intro s hs
    have hnil : s = [] := List.length_eq_zero.mp (Nat.le_zero.mp hs)
    subst hnil
    rw [collapseSlashes.eq_def]
    split
    · exact ⟨rfl, rfl⟩
    · rename_i t h
      simp [replaceFirstSlashes] at h
  | succ n ih =>
    intro s hs
    rw [collapseSlashes.eq_def]
    split
    · rename_i h
      exact ⟨replaceFirstSlashes_none_iff.mp h, rfl⟩
    · rename_i t h
      have hlen := replaceFirstSlashes_length h
      have hrec := ih t (by omega)
      exact ⟨hrec.1, hrec.2.trans (replaceFirstSlashes_head h)⟩

theorem collapseSlashes_noDouble (s : List Char) :
    hasDoubleSlash (collapseSlashes s) = false :=
  (collapseSlashes_spec s.length s le_rfl).1

theorem collapseSlashes_head (s : List Char) :
    (collapseSlashes s).head? = s.head? :=
  (collapseSlashes_spec s.length s le_rfl).2

theorem ensureLeadingSlash_head (t : List Char) :
    (ensureLeadingSlash t).head? = some '/' := by
  unfold ensureLeadingSlash
  split
  · assumption
  · rfl

theorem normalizePath_head (p : Option String) :
    (normalizePath p).data.head? = some '/' := by
  cases p with
  | none => rfl
  | some str =>
    by_cases hstr : str = ""
    · subst hstr; rfl
    · simp only [normalizePath, if_neg hstr]
      show (collapseSlashes (ensureLeadingSlash (trimChars str.data))).head? = some '/'
      rw [collapseSlashes_head, ensureLeadingSlash_head]

theorem normalizePath_noDouble (p : Option String) :
    hasDoubleSlash (normalizePath p).data = false := by
  cases p with
  | none => rfl
  | some str =>
    by_cases hstr : str = ""
    · subst hstr; rfl
    · simp only [normalizePath, if_neg hstr]
      exact collapseSlashes_noDouble _

theorem noDouble_second {l : List Char} (h1 : l.head? = some '/')
    (h2 : hasDoubleSlash l = false) : l.tail.head? ≠ some '/' := by
  cases l with
  | nil => simp at h1
  | cons c rest =>
    simp only [List.head?_cons, Option.some.injEq] at h1
    subst h1
    simp only [hasDoubleSlash, Bool.or_eq_false_iff, Bool.and_eq_false_iff] at h2
    simp only [List.tail_cons]
    intro hc
    rcases h2.1 with h | h
    · simp at h
    · rw [hc] at h
      simp at h

/-- C3: for every input string lacking a leading slash, `normalizePath`
returns a string starting with exactly one slash; for every input the
result contains no two consecutive slashes; an absent input yields `"/"`. -/
theorem c3_normalizePath :
    (∀ p : String, p.data.head? ≠ some '/' →
      (normalizePath (some p)).data.head? = some '/' ∧
      (normalizePath (some p)).data.tail.head? ≠ some '/') ∧
    (∀ p : Option String, hasDoubleSlash (normalizePath p).data = false) ∧
    normalizePath none = "/" :=
  ⟨fun p _ =>
    ⟨normalizePath_head (some p),
     noDouble_second (normalizePath_head (some p)) (normalizePath_noDouble (some p))⟩,
   normalizePath_noDouble, rfl⟩

/-- C3 witness: concrete run on `"blog//post"`, which lacks a leading slash. -/
theorem c3_normalizePath_witness :
    ("blog//post".data.head? ≠ some '/') ∧
    ((normalizePath (some "blog//post")).data.head? = some '/' ∧
     (normalizePath (some "blog//post")).data.tail.head? ≠ some '/') :=
  ⟨by decide, c3_normalizePath.1 "blog//post" (by decide)⟩

/- ============ AuthorInfo and the Person schema ============ -/

/-- `AuthorInfo` from the source (all optional fields are `undefined`-able). -/
structure AuthorInfo where
  name : String
  email : Option String := none
  twitter : Option String := none
  url : Option String := none
  jobTitle : Option String := none
  bio : Option String := none
  image : Option String := none
  sameAs : Option (List String) := none
deriving DecidableEq

/-- The JSON-LD `Person` object assembled by `buildPersonSchema`
(the constant `"@type": "Person"` is carried by the Lean type itself). -/
structure PersonSchema where
  name : String
  url : Option String := none
  email : Option String := none
  image : Option String := none
  description : Option String := none
  jobTitle : Option String := none
  sameAs : Option (List String) := none
deriving DecidableEq

/-- JavaScript `s.startsWith(pre)` (modelled platform primitive:
prefix test on the character sequence). -/
def strStartsWith (s pre : String) : Bool := pre.data.isPrefixOf s.data

/-- JavaScript `t.replace("@", "")`: remove the first occurrence of `'@'`. -/
def removeFirstAt : List Char → List Char
  | [] => []
  | c :: rest => if c = '@' then rest else c :: removeFirstAt rest

def replaceFirstAtStr (s : String) : String := String.mk (removeFirstAt s.data)

/-- The `sameAsUrls` accumulation inside `buildPersonSchema`: the record's
own `sameAs` entries, then the twitter-derived profile URL when the twitter
field is truthy and does not already start with `"http"`. -/
def personSameAsUrls (author : AuthorInfo) : List String :=
  author.sameAs.getD [] ++
  (match author.twitter with
   | some t =>
     if t ≠ "" ∧ strStartsWith t "http" = false
     then ["https://twitter.com/" ++ replaceFirstAtStr t] else []
   | none => [])

/-- `buildPersonSchema` from the source: each optional field is copied
only when truthy, and `sameAs` is set only when the accumulated list is
non-empty. -/
def buildPersonSchema (author : AuthorInfo) : PersonSchema :=
  { name := author.name
    url := optIfTruthy author.url
    email := optIfTruthy author.email
    image := optIfTruthy author.image
    description := optIfTruthy author.bio
    jobTitle := optIfTruthy author.jobTitle
    sameAs :=
      if (personSameAsUrls author).length > 0
      then some (personSameAsUrls author) else none }

theorem optIfTruthy_eq_some_iff (o : Option String) (s : String) :
    optIfTruthy o = some s ↔ o = some s ∧ s ≠ "" := by
  cases o with
  | none => simp [optIfTruthy]
  | some t =>
    simp only [optIfTruthy]
    by_cases ht : t = ""
    · subst ht
      rw [if_pos rfl]
      constructor
      · intro h; cases h
      · rintro ⟨h1, h2⟩
        exact absurd (Option.some.inj h1).symm h2
    · rw [if_neg ht]
      constructor
      · intro h
        exact ⟨h, fun hs => ht ((Option.some.inj h).trans hs)⟩
      · rintro ⟨h1, _⟩; exact h1

/-- C6 counterexample: the field `url` is provided (as the empty string)
yet the built Person object omits it, so "included exactly when present"
fails as stated. -/
theorem c6_buildPersonSchema_counterexample :
    (buildPersonSchema { name := "A", url := some "" }).url = none ∧
    ({ name := "A", url := some "" } : AuthorInfo).url ≠ none := by
  exact ⟨rfl, by simp⟩

/-- C6 (amended): each optional field of the Person object is included
exactly when it is present AND non-empty; when the twitter handle is
present, non-empty and does not start with `"http"`, the derived
`https://twitter.com/<handle without its first "@">` URL is appended after
the record's own profile URLs in `sameAs`. -/
theorem c6_buildPersonSchema (a : AuthorInfo) :
    (∀ s, (buildPersonSchema a).url = some s ↔ a.url = some s ∧ s ≠ "") ∧
    (∀ s, (buildPersonSchema a).email = some s ↔ a.email = some s ∧ s ≠ "") ∧
    (∀ s, (buildPersonSchema a).image = some s ↔ a.image = some s ∧ s ≠ "") ∧
    (∀ s, (buildPersonSchema a).description = some s ↔ a.bio = some s ∧ s ≠ "") ∧
    (∀ s, (buildPersonSchema a).jobTitle = some s ↔ a.jobTitle = some s ∧ s ≠ "") ∧
    (∀ t, a.twitter = some t → t ≠ "" → strStartsWith t "http" = false →
      (buildPersonSchema a).sameAs =
        some (a.sameAs.getD [] ++ ["https://twitter.com/" ++ replaceFirstAtStr t])) := by
  refine ⟨fun s => optIfTruthy_eq_some_iff _ s, fun s => optIfTruthy_eq_some_iff _ s,
    fun s => optIfTruthy_eq_some_iff _ s, fun s => optIfTruthy_eq_some_iff _ s,
    fun s => optIfTruthy_eq_some_iff _ s, ?_⟩
  intro t ht hne hpre
  have hurls : personSameAsUrls a =
      a.sameAs.getD [] ++ ["https://twitter.com/" ++ replaceFirstAtStr t] := by
    simp only [personSameAsUrls, ht, if_pos (And.intro hne hpre)]
  show (if (personSameAsUrls a).length > 0 then some (personSameAsUrls a) else none) = _
  rw [hurls]
  rw [if_pos (by simp)]

/-- Sample author used by the C6 witness. -/
def sampleAuthor1 : AuthorInfo :=
  { name := "N", twitter := some "@h", url := some "u", sameAs := some ["g"] }

/-- C6 witness: a concrete author exercising both the truthy-field part and
the handle-derivation part of the amended claim. -/
theorem c6_buildPersonSchema_witness :
    (buildPersonSchema sampleAuthor1).url = some "u" ∧
    (buildPersonSchema sampleAuthor1).sameAs = some ["g", "https://twitter.com/h"] := by
  constructor
  · exact ((c6_buildPersonSchema sampleAuthor1).1 "u").mpr ⟨rfl, by simp⟩
  · have h := (c6_buildPersonSchema sampleAuthor1).2.2.2.2.2 "@h" rfl (by simp) (by decide)
    rw [h]
    decide

/-- C10: the Person object carries a `sameAs` field exactly when the
combined list of own profile URLs and handle-derived URL is non-empty, and
never carries an empty `sameAs` list; an author with neither yields no
`sameAs` field at all. -/
theorem c10_personSameAs (a : AuthorInfo) :
    ((buildPersonSchema a).sameAs ≠ none ↔ personSameAsUrls a ≠ []) ∧
    (∀ l, (buildPersonSchema a).sameAs = some l → l ≠ []) ∧
    (personSameAsUrls a ≠ [] → (buildPersonSchema a).sameAs = some (personSameAsUrls a)) ∧
    (buildPersonSchema { name := "B" }).sameAs = none := by
  have hsame : (buildPersonSchema a).sameAs =
      if (personSameAsUrls a).length > 0 then some (personSameAsUrls a) else none := rfl
  by_cases hl : personSameAsUrls a = []
  · rw [hsame, if_neg (by simp [hl])]
    refine ⟨by simp [hl], by simp, fun h => absurd hl h, rfl⟩
  · have hpos : (personSameAsUrls a).length > 0 := List.length_pos.mpr hl
    rw [hsame, if_pos hpos]
    refine ⟨by simp [hl], ?_, fun _ => rfl, rfl⟩
    intro l h
    rw [Option.some.injEq] at h
    exact h ▸ hl

/-- C10 witness: an author whose only link source is the twitter handle
still gets a non-empty `sameAs`. -/
theorem c10_personSameAs_witness :
    (buildPersonSchema { name := "N", twitter := some "@x" }).sameAs =
      some (personSameAsUrls { name := "N", twitter := some "@x" }) :=
  (c10_personSameAs _).2.2.1 (by decide)

/- ============ number formatting: price.toFixed(2) ============ -/

/-- Decimal digits of `n`, most significant first; the first argument is
recursion fuel (any fuel above the digit count gives the same answer). -/
def natToCharsAux : Nat → Nat → List Char
  | 0, _ => []
  | fuel + 1, n => if n = 0 then [] else natToCharsAux fuel (n / 10) ++ [Nat.digitChar (n % 10)]

/-- Decimal rendering of a natural number. -/
def natStr (n : Nat) : String :=
  if n = 0 then "0" else String.mk (natToCharsAux (n + 1) n)

/-- Two-digit zero-padded rendering, for the fractional part. -/
def pad2 (k : Nat) : String :=
  if k < 10 then "0" ++ natStr k else natStr k

/-- JavaScript `x.toFixed(2)` on an exact rational: round `|x| * 100` to the
nearest integer (ties toward the larger integer, per the ECMAScript
specification of ToFixed), then print sign, integer part, `"."` and a
two-digit fractional part. -/
def toFixed2 (q : ℚ) : String :=
  (if q < 0 then "-" else "") ++ natStr ((⌊|q| * 100 + 1 / 2⌋).toNat / 100) ++ "." ++
    pad2 ((⌊|q| * 100 + 1 / 2⌋).toNat % 100)

theorem digitChar_isDigit : ∀ d < 10, (Nat.digitChar d).isDigit := by decide

theorem natToCharsAux_digits :
    ∀ (fuel n : Nat), ∀ c ∈ natToCharsAux fuel n, c.isDigit := by
  intro fuel
  induction fuel with
  | zero => intro n c hc; simp [natToCharsAux] at hc
  | succ fuel ih =>
    intro n c hc
    simp only [natToCharsAux] at hc
    split at hc
    · simp at hc
    · rw [List.mem_append] at hc
      rcases hc with hc | hc
      · exact ih _ c hc
      · rw [List.mem_singleton] at hc
        subst hc
        exact digitChar_isDigit _ (Nat.mod_lt _ (by norm_num))

theorem natStr_digits (n : Nat) : ∀ c ∈ (natStr n).data, c.isDigit := by
  unfold natStr
  split
  · intro c hc
    rw [show ("0" : String).data = ['0'] from rfl, List.mem_singleton] at hc
    subst hc
    decide
  · exact natToCharsAux_digits _ _

theorem pad2_spec : ∀ k < 100, (pad2 k).data.length = 2 ∧ ∀ c ∈ (pad2 k).data, c.isDigit := by
  decide

/-- "Exactly two decimal digits": the string splits as `pre ++ "." ++ post`
where `post` is two decimal digits and `pre` contains no decimal point. -/
def twoDecimalFormat (s : String) : Prop :=
  ∃ pre post : String, s = pre ++ "." ++ post ∧ post.data.length = 2 ∧
    (∀ c ∈ post.data, c.isDigit) ∧ (∀ c ∈ pre.data, c ≠ '.')

theorem toFixed2_format (q : ℚ) : twoDecimalFormat (toFixed2 q) := by
  refine ⟨(if q < 0 then "-" else "") ++ natStr ((⌊|q| * 100 + 1 / 2⌋).toNat / 100),
    pad2 ((⌊|q| * 100 + 1 / 2⌋).toNat % 100), rfl,
    (pad2_spec _ (Nat.mod_lt _ (by norm_num))).1,
    (pad2_spec _ (Nat.mod_lt _ (by norm_num))).2, ?_⟩
  intro c hc
  rw [str_data_append, List.mem_append] at hc
  rcases hc with hc | hc
  · split at hc
    · rw [show ("-" : String).data = ['-'] from rfl, List.mem_singleton] at hc
      subst hc
      decide
    · simp [show ("" : String).data = [] from rfl] at hc
  · have hd := natStr_digits _ c hc
    intro h
    subst h
    exact absurd hd (by decide)

/- ============ Product schema ============ -/

structure BrandSchema where
  name : String
deriving DecidableEq

structure OfferSchema where
  price : String
  priceCurrency : String
  availability : String
deriving DecidableEq

structure AggregateRatingSchema where
  ratingValue : ℚ
  reviewCount : ℚ
deriving DecidableEq

structure ProductSchema where
  name : String
  description : Option String
  image : Option String
  brand : Option BrandSchema
  offers : OfferSchema
  aggregateRating : Option AggregateRatingSchema
deriving DecidableEq

/-- The argument object of `buildProductSchema`. -/
structure ProductArgs where
  name : String
  description : Option String := none
  price : ℚ
  currency : String
  rating : Option ℚ := none
  reviewCount : Option ℚ := none
  image : Option String := none
  brand : Option String := none
deriving DecidableEq

/-- `buildProductSchema` from the source. The optional blocks are spread in
only when the corresponding arguments are truthy: for `rating` and
`reviewCount` (numbers) truthiness means defined and non-zero. -/
def buildProductSchema (a : ProductArgs) : ProductSchema :=
  { name := a.name
    description := optIfTruthy a.description
    image := optIfTruthy a.image
    brand :=
      match a.brand with
      | some b => if b = "" then none else some { name := b }
      | none => none
    offers :=
      { price := toFixed2 a.price
        priceCurrency := a.currency
        availability := "https://schema.org/InStock" }
    aggregateRating :=
      match a.rating, a.reviewCount with
      | some r, some c =>
        if r ≠ 0 ∧ c ≠ 0 then some { ratingValue := r, reviewCount := c } else none
      | _, _ => none }

/-- Concrete product arguments with a provided-but-zero rating. -/
def productArgs0 : ProductArgs :=
  { name := "p", price := 1, currency := "USD", rating := some 0, reviewCount := some 5 }

/-- C1 counterexample: `rating` and `reviewCount` are both provided
(`rating = 0`), yet `aggregateRating` is omitted, refuting the claimed
"if and only if both are provided". -/
theorem c1_aggregateRating_counterexample :
    (buildProductSchema productArgs0).aggregateRating = none ∧
    productArgs0.rating ≠ none ∧ productArgs0.reviewCount ≠ none := by
  refine ⟨?_, by simp [productArgs0], by simp [productArgs0]⟩
  have hagg : (buildProductSchema productArgs0).aggregateRating =
      (if (0 : ℚ) ≠ 0 ∧ (5 : ℚ) ≠ 0
       then some { ratingValue := (0 : ℚ), reviewCount := (5 : ℚ) } else none) := rfl
  rw [hagg, if_neg]
  rintro ⟨h, _⟩
  exact h rfl

/-- C1 (amended): `aggregateRating` is present if and only if `rating` and
`reviewCount` are both provided and non-zero (JavaScript truthiness of the
spread guard); when present it carries the given rating as `ratingValue`
and the given `reviewCount`. -/
theorem c1_aggregateRating (a : ProductArgs) :
    ((buildProductSchema a).aggregateRating ≠ none ↔
      (∃ r, a.rating = some r ∧ r ≠ 0) ∧ (∃ c, a.reviewCount = some c ∧ c ≠ 0)) ∧
    (∀ r c, a.rating = some r → a.reviewCount = some c → r ≠ 0 → c ≠ 0 →
      (buildProductSchema a).aggregateRating = some { ratingValue := r, reviewCount := c }) := by
  have hagg : (buildProductSchema a).aggregateRating =
      match a.rating, a.reviewCount with
      | some r, some c =>
        if r ≠ 0 ∧ c ≠ 0 then some { ratingValue := r, reviewCount := c } else none
      | _, _ => none := rfl
  constructor
  · rw [hagg]
    rcases ha : a.rating with _ | r <;> rcases hb : a.reviewCount with _ | c <;> simp
  · intro r c h1 h2 h3 h4
    rw [hagg]
    simp only [h1, h2]
    rw [if_pos ⟨h3, h4⟩]

/-- C1 witness: both provided and non-zero gives the aggregate block. -/
theorem c1_aggregateRating_witness :
    (buildProductSchema { name := "p", price := 9, currency := "USD", rating := some 4, reviewCount := some 10 }).aggregateRating =
      some { ratingValue := 4, reviewCount := 10 } :=
  (c1_aggregateRating _).2 4 10 rfl rfl (by norm_num) (by norm_num)

/- ============ configuration, environment, constructMetadata ============ -/

/-- One entry of the metadata `icons` list. -/
structure IconEntry where
  url : String
  rel : Option String := none
  sizes : Option String := none
  type : Option String := none
deriving DecidableEq

/-- The icon paths of `appConfig.icons` (each possibly `undefined`). -/
structure IconsConfig where
  faviconAny : Option String := none
  icon32 : Option String := none
  icon48 : Option String := none
  icon192 : Option String := none
  icon512 : Option String := none
  appleTouch : Option String := none
deriving DecidableEq

/-- The process-wide `appConfig` object, flattened: every optional chain
such as `appConfig.seo?.canonicalBase` becomes a single `Option` field, and
`ogImagePath` stands for the result of `getOgImagePath()`. -/
structure AppConfig where
  name : String
  description : String
  url : String
  logo : String
  lang : String
  ogImagePath : String
  canonicalBase : Option String := none
  defaultLocale : Option String := none
  socialTwitter : Option String := none
  ogType : Option String := none
  ogSiteName : Option String := none
  ogImageWidth : Option Nat := none
  ogImageHeight : Option Nat := none
  ogLocale : Option String := none
  robotsIndex : Option Bool := none
  robotsFollow : Option Bool := none
  icons : IconsConfig := {}
deriving DecidableEq

/-- The two `process.env` verification variables. -/
structure Env where
  googleVerification : Option String := none
  yandexVerification : Option String := none
deriving DecidableEq

/-- The module-level `verification` record: each provider key is included
only when its token is defined and non-empty after trimming. -/
def verificationOf (env : Env) : List (String × String) :=
  (match env.googleVerification.map jsTrimStr with
   | some s => if s ≠ "" then [("google", s)] else []
   | none => []) ++
  (match env.yandexVerification.map jsTrimStr with
   | some s => if s ≠ "" then [("yandex", s)] else []
   | none => [])

def stripTrailingSlashes (s : String) : String :=
  String.mk ((s.data.reverse.dropWhile (· == '/')).reverse)

/-- Modelled platform primitive: `new URL(url, base).toString()` for the
absolute http(s) site bases used here: an input already carrying an http(s)
scheme is returned unchanged; any other input is resolved against the base
with exactly one slash in between. -/
def urlResolve (base url : String) : String :=
  if strStartsWith url "http://" || strStartsWith url "https://" then url
  else if strStartsWith url "/" then stripTrailingSlashes base ++ url
  else stripTrailingSlashes base ++ "/" ++ url

/-- The module-load-time `CACHED_ICONS` derivation: one entry per non-empty
configured icon path, in the source's order. -/
def cachedIcons (cfg : AppConfig) : List IconEntry :=
  (match cfg.icons.faviconAny with
   | some s => if s ≠ "" then [{ url := s, rel := some "icon", sizes := some "any", type := some "image/x-icon" }] else []
   | none => []) ++
  (match cfg.icons.icon32 with
   | some s => if s ≠ "" then [{ url := s, type := some "image/png", sizes := some "32x32", rel := some "icon" }] else []
   | none => []) ++
  (match cfg.icons.icon48 with
   | some s => if s ≠ "" then [{ url := s, type := some "image/png", sizes := some "48x48", rel := some "icon" }] else []
   | none => []) ++
  (match cfg.icons.icon192 with
   | some s => if s ≠ "" then [{ url := s, type := some "image/png", sizes := some "192x192", rel := some "icon" }] else []
   | none => []) ++
  (match cfg.icons.icon512 with
   | some s => if s ≠ "" then [{ url := s, type := some "image/png", sizes := some "512x512", rel := some "icon" }] else []
   | none => []) ++
  (match cfg.icons.appleTouch with
   | some s => if s ≠ "" then [{ url := s, rel := some "apple-touch-icon", sizes := some "180x180", type := some "image/png" }] else []
   | none => [])

/-- `DEFAULT_AUTHOR` from the source. -/
def DEFAULT_AUTHOR : AuthorInfo :=
  { name := "Roman Bolshiyanov"
    email := some "roman@aifa.dev"
    twitter := some "@aifa_agi"
    url := some "https://github.com/aifa-agi"
    jobTitle := some "Founder & Lead Developer"
    bio := some "Full-stack developer specializing in AI-powered SaaS applications"
    sameAs := some ["https://github.com/aifa-agi", "https://twitter.com/aifa_agi"] }

def DEFAULT_CREATOR : String := "aifa.dev"

/-- The argument object of `constructMetadata` (every field optional). -/
structure ConstructArgs where
  title : Option String := none
  description : Option String := none
  image : Option String := none
  pathname : Option String := none
  locale : Option String := none
  noIndex : Option Bool := none
  noFollow : Option Bool := none
deriving DecidableEq

structure OgImage where
  url : String
  width : Nat
  height : Nat
  alt : String
deriving DecidableEq

structure OpenGraphMeta where
  type : String
  title : String
  description : String
  url : String
  siteName : String
  images : List OgImage
  locale : String
deriving DecidableEq

structure TwitterMeta where
  card : String
  title : String
  description : String
  images : List String
  creator : Option String
deriving DecidableEq

structure RobotsMeta where
  index : Bool
  follow : Bool
deriving DecidableEq

/-- The metadata object returned by `constructMetadata` (the canonical link
of `alternates` is carried directly as `canonical`). -/
structure Metadata where
  title : String
  description : String
  metadataBase : String
  canonical : String
  manifest : String
  icons : List IconEntry
  authors : List (String × Option String)
  creator : String
  publisher : String
  openGraph : OpenGraphMeta
  twitter : TwitterMeta
  robots : RobotsMeta
  verification : Option (List (String × String))
deriving DecidableEq

/-- `constructMetadata` from the source, with `appConfig` and the
environment passed explicitly. -/
def constructMetadata (cfg : AppConfig) (env : Env) (args : ConstructArgs) : Metadata :=
  let title := args.title.getD cfg.name
  let description := args.description.getD cfg.description
  let image := args.image.getD cfg.ogImagePath
  let locale := args.locale.getD (cfg.defaultLocale.getD cfg.lang)
  let noIndex := args.noIndex.getD false
  let noFollow := args.noFollow.getD false
  let base := cfg.canonicalBase.getD cfg.url
  let path := normalizePath args.pathname
  let canonical := urlResolve base path
  let validDescription := truncateDescription description MAX_DESCRIPTION_LENGTH
  { title := title
    description := validDescription
    metadataBase := cfg.url
    canonical := canonical
    manifest := "/manifest.webmanifest"
    icons := cachedIcons cfg
    authors := [(DEFAULT_AUTHOR.name, DEFAULT_AUTHOR.url)]
    creator := DEFAULT_CREATOR
    publisher := DEFAULT_CREATOR
    openGraph :=
      { type := cfg.ogType.getD "website"
        title := title
        description := validDescription
        url := canonical
        siteName := cfg.ogSiteName.getD cfg.name
        images := [{ url := image, width := cfg.ogImageWidth.getD 1200,
                     height := cfg.ogImageHeight.getD 630, alt := validDescription }]
        locale := cfg.ogLocale.getD (locale ++ "_" ++ locale.toUpper) }
    twitter :=
      { card := "summary_large_image"
        title := title
        description := validDescription
        images := [image]
        creator := cfg.socialTwitter }
    robots :=
      { index := !noIndex && cfg.robotsIndex.getD true
        follow := !noFollow && cfg.robotsFollow.getD true }
    verification :=
      if (verificationOf env).length > 0 then some (verificationOf env) else none }

/-- C7: the `offers.price` field is the given price rendered with exactly
two decimal digits; in particular price `9` renders as `"9.00"`. -/
theorem c7_priceFormat (a : ProductArgs) :
    (buildProductSchema a).offers.price = toFixed2 a.price ∧
    twoDecimalFormat ((buildProductSchema a).offers.price) ∧
    (buildProductSchema { name := "x", price := 9, currency := "USD" }).offers.price = "9.00" := by
  refine ⟨rfl, toFixed2_format _, ?_⟩
  show toFixed2 9 = "9.00"
  unfold toFixed2
  rw [if_neg (by norm_num), show (⌊|(9 : ℚ)| * 100 + 1 / 2⌋ : ℤ) = 900 from by norm_num]
  decide

/- ============ Article, FAQ and Breadcrumb schemas ============ -/

structure OrganizationSchema where
  name : String
  logoUrl : String
deriving DecidableEq

/-- The JSON-LD Article object; `author` is a single Person or a list,
exactly as the source branches on `Array.isArray(author)`. -/
structure ArticleSchema where
  headline : String
  datePublished : String
  dateModified : String
  author : Sum PersonSchema (List PersonSchema)
  description : Option String
  publisher : OrganizationSchema
  image : Option String
deriving DecidableEq

/-- The argument object of `buildArticleSchema`. -/
structure ArticleArgs where
  headline : String
  datePublished : String
  dateModified : Option String := none
  author : Sum AuthorInfo (List AuthorInfo)
  image : Option String := none
  description : Option String := none
deriving DecidableEq

/-- `buildArticleSchema` from the source: `dateModified` is
`dateModified || datePublished`, the publisher logo is the configured logo
resolved against the site URL. -/
def buildArticleSchema (cfg : AppConfig) (a : ArticleArgs) : ArticleSchema :=
  { headline := a.headline
    datePublished := a.datePublished
    dateModified := jsOrElse a.dateModified a.datePublished
    author :=
      match a.author with
      | .inl x => .inl (buildPersonSchema x)
      | .inr xs => .inr (xs.map buildPersonSchema)
    description := optIfTruthy a.description
    publisher := { name := DEFAULT_CREATOR, logoUrl := urlResolve cfg.url cfg.logo }
    image := optIfTruthy a.image }

structure QuestionSchema where
  name : String
  acceptedAnswerText : String
deriving DecidableEq

/-- `buildFAQSchema` from the source: order-preserving map of
question/answer pairs. -/
def buildFAQSchema (faqs : List (String × String)) : List QuestionSchema :=
  faqs.map fun f => { name := f.1, acceptedAnswerText := f.2 }

structure ListItemSchema where
  position : Nat
  name : String
  item : String
deriving DecidableEq

structure BreadcrumbListSchema where
  itemListElement : List ListItemSchema
deriving DecidableEq

/-- The indexed map inside `buildBreadcrumbSchema`; the first argument is
the running 0-based index of the JavaScript `map((item, index) => ...)`. -/
def breadcrumbItems (cfg : AppConfig) : Nat → List (String × String) → List ListItemSchema
  | _, [] => []
  | k, b :: rest =>
    { position := k + 1, name := b.1, item := urlResolve cfg.url b.2 } ::
      breadcrumbItems cfg (k + 1) rest

/-- `buildBreadcrumbSchema` from the source. -/
def buildBreadcrumbSchema (cfg : AppConfig) (breadcrumbs : List (String × String)) :
    BreadcrumbListSchema :=
  { itemListElement := breadcrumbItems cfg 0 breadcrumbs }

/- ============ sample configuration for the witnesses ============ -/

def sampleConfig : AppConfig :=
  { name := "Site", description := "Desc", url := "https://example.com",
    logo := "/logo.png", lang := "en", ogImagePath := "/og.png" }

def sampleEnv : Env := {}

def longDescription : String := String.mk (List.replicate 161 'a')

/- ============ remaining claims ============ -/

/-- C2: a description longer than 160 characters is returned truncated to
its first 157 characters followed by `"..."` (hence length at most 160); a
description of at most 160 characters is returned unchanged. -/
theorem c2_description (cfg : AppConfig) (env : Env) (args : ConstructArgs)
    (d : String) (h : args.description = some d) :
    (160 < d.data.length →
      (constructMetadata cfg env args).description.data.length ≤ 160 ∧
      (constructMetadata cfg env args).description.data = d.data.take 157 ++ ['.', '.', '.']) ∧
    (d.data.length ≤ 160 → (constructMetadata cfg env args).description = d) := by
  have hdesc : (constructMetadata cfg env args).description =
      truncateDescription d MAX_DESCRIPTION_LENGTH := by
    show truncateDescription (args.description.getD cfg.description) MAX_DESCRIPTION_LENGTH = _
    rw [h]
    rfl
  constructor
  · intro hlen
    rw [hdesc]
    unfold truncateDescription MAX_DESCRIPTION_LENGTH
    rw [if_neg (by omega)]
    rw [str_data_append]
    constructor
    · simp only [List.length_append, List.length_take]
      have h3 : ("..." : String).data.length = 3 := rfl
      rw [h3]
      omega
    · rfl
  · intro hlen
    rw [hdesc]
    unfold truncateDescription
    exact if_pos hlen

/-- C2 witness: a 161-character description is truncated; a short one is
returned unchanged. -/
theorem c2_description_witness :
    ((constructMetadata sampleConfig sampleEnv { description := some longDescription }).description.data.length ≤ 160 ∧
     (constructMetadata sampleConfig sampleEnv { description := some longDescription }).description.data =
       longDescription.data.take 157 ++ ['.', '.', '.']) ∧
    (constructMetadata sampleConfig sampleEnv { description := some "short" }).description = "short" :=
  ⟨(c2_description sampleConfig sampleEnv _ longDescription rfl).1 (by simp [longDescription]),
   (c2_description sampleConfig sampleEnv _ "short" rfl).2 (by decide)⟩

/-- The provider token a claim reads from the environment: `none` unless
the raw variable is present and non-empty after trimming, in which case it
is the trimmed token. -/
def trimmedToken (o : Option String) : Option String :=
  match o with
  | some s => if jsTrimStr s = "" then none else some (jsTrimStr s)
  | none => none

theorem verificationOf_lookup (env : Env) :
    (verificationOf env).lookup "google" = trimmedToken env.googleVerification ∧
    (verificationOf env).lookup "yandex" = trimmedToken env.yandexVerification ∧
    ((verificationOf env) = [] ↔
      trimmedToken env.googleVerification = none ∧
      trimmedToken env.yandexVerification = none) := by
  rcases hg : env.googleVerification with _ | g <;> rcases hy : env.yandexVerification with _ | y <;>
    simp only [verificationOf, trimmedToken, hg, hy, Option.map_some', Option.map_none'] <;>
    [skip; by_cases hty : jsTrimStr y = ""; by_cases htg : jsTrimStr g = "";
     (by_cases htg : jsTrimStr g = "" <;> by_cases hty : jsTrimStr y = "")] <;>
    simp_all [List.lookup]

/-- C4: the `verification` field is present iff at least one token is
non-empty after trimming; when present, the mapping has key `"google"`
(resp. `"yandex"`) exactly when that token is non-empty after trimming,
bound to the trimmed token. -/
theorem c4_verification (cfg : AppConfig) (env : Env) (args : ConstructArgs) :
    ((constructMetadata cfg env args).verification ≠ none ↔
      trimmedToken env.googleVerification ≠ none ∨
      trimmedToken env.yandexVerification ≠ none) ∧
    (∀ v, (constructMetadata cfg env args).verification = some v →
      v.lookup "google" = trimmedToken env.googleVerification ∧
      v.lookup "yandex" = trimmedToken env.yandexVerification) := by
  have hver : (constructMetadata cfg env args).verification =
      if (verificationOf env).length > 0 then some (verificationOf env) else none := rfl
  by_cases hemp : verificationOf env = []
  · rw [hver, if_neg (by simp [hemp])]
    constructor
    · simp only [ne_eq, not_true_eq_false, false_iff]
      push_neg
      have := ((verificationOf_lookup env).2.2).mp hemp
      exact ⟨this.1, this.2⟩
    · intro v hv; cases hv
  · rw [hver, if_pos (List.length_pos.mpr hemp)]
    constructor
    · simp only [ne_eq, reduceCtorEq, not_false_eq_true, true_iff]
      by_contra hc
      push_neg at hc
      exact hemp (((verificationOf_lookup env).2.2).mpr hc)
    · intro v hv
      rw [Option.some.injEq] at hv
      subst hv
      exact ⟨(verificationOf_lookup env).1, (verificationOf_lookup env).2.1⟩

/-- C4 witness: with a padded Google token and no Yandex token the field is
present and maps `"google"` to the trimmed token. -/
theorem c4_verification_witness :
    ((verificationOf { googleVerification := some " tok " }).lookup "google" =
      trimmedToken (some " tok ") ∧
     (verificationOf { googleVerification := some " tok " }).lookup "yandex" =
      trimmedToken (none : Option String)) ∧
    (constructMetadata sampleConfig { googleVerification := some " tok " } {}).verification ≠ none :=
  ⟨(c4_verification sampleConfig { googleVerification := some " tok " } {}).2
      (verificationOf { googleVerification := some " tok " }) (by decide),
   ((c4_verification sampleConfig { googleVerification := some " tok " } {}).1).mpr
      (Or.inl (by decide))⟩

/-- C8: `robots.index` is true iff `noIndex` is not set to true and the
configured robots-index default is not explicitly disabled; likewise for
`robots.follow` with `noFollow`. -/
theorem c8_robots (cfg : AppConfig) (env : Env) (args : ConstructArgs) :
    ((constructMetadata cfg env args).robots.index = true ↔
      args.noIndex ≠ some true ∧ cfg.robotsIndex ≠ some false) ∧
    ((constructMetadata cfg env args).robots.follow = true ↔
      args.noFollow ≠ some true ∧ cfg.robotsFollow ≠ some false) := by
  have h1 : (constructMetadata cfg env args).robots.index =
      (!(args.noIndex.getD false) && cfg.robotsIndex.getD true) := rfl
  have h2 : (constructMetadata cfg env args).robots.follow =
      (!(args.noFollow.getD false) && cfg.robotsFollow.getD true) := rfl
  rw [h1, h2]
  constructor
  · rcases args.noIndex with _ | b <;> rcases cfg.robotsIndex with _ | c <;> simp
  · rcases args.noFollow with _ | b <;> rcases cfg.robotsFollow with _ | c <;> simp

/-- C9: `dateModified` equals `datePublished` when the argument is absent
or the empty string, and equals the argument when it is non-empty. -/
theorem c9_dateModified (cfg : AppConfig) (a : ArticleArgs) :
    (a.dateModified = none → (buildArticleSchema cfg a).dateModified = a.datePublished) ∧
    (a.dateModified = some "" → (buildArticleSchema cfg a).dateModified = a.datePublished) ∧
    (∀ s, a.dateModified = some s → s ≠ "" →
      (buildArticleSchema cfg a).dateModified = s) := by
  have hd : (buildArticleSchema cfg a).dateModified =
      jsOrElse a.dateModified a.datePublished := rfl
  refine ⟨?_, ?_, ?_⟩
  · intro h; rw [hd, h]; rfl
  · intro h; rw [hd, h]; rfl
  · intro s h hne
    rw [hd, h]
    simp [jsOrElse, hne]

/-- C9 witness: an empty-string `dateModified` falls back to the publish
date. -/
theorem c9_dateModified_witness :
    (buildArticleSchema sampleConfig
      { headline := "H", datePublished := "2024-01-01", dateModified := some "",
        author := Sum.inl sampleAuthor1 }).dateModified = "2024-01-01" :=
  (c9_dateModified sampleConfig _).2.1 rfl

theorem breadcrumbItems_length (cfg : AppConfig) :
    ∀ (k : Nat) (bc : List (String × String)), (breadcrumbItems cfg k bc).length = bc.length := by
  intro k bc
  induction bc generalizing k with
  | nil => rfl
  | cons b rest ih => simp [breadcrumbItems, ih]

theorem breadcrumbItems_get (cfg : AppConfig) :
    ∀ (bc : List (String × String)) (k i : Nat) (p : String × String),
      bc.get? i = some p →
      (breadcrumbItems cfg k bc).get? i =
        some { position := k + i + 1, name := p.1, item := urlResolve cfg.url p.2 } := by
  intro bc
  induction bc with
  | nil => intro k i p h; simp at h
  | cons b rest ih =>
    intro k i p h
    cases i with
    | zero =>
      rw [List.get?_cons_zero, Option.some.injEq] at h
      subst h
      rfl
    | succ i =>
      rw [List.get?_cons_succ] at h
      have hr := ih (k + 1) i p h
      show (breadcrumbItems cfg (k + 1) rest).get? i = _
      rw [hr]
      have harith : k + 1 + i + 1 = k + (i + 1) + 1 := by omega
      rw [harith]

/-- C5: the breadcrumb list preserves length and order, the i-th element
(0-based) has position `i+1`, the i-th name, and the i-th URL resolved
against the configured site URL; on Home/Blog it yields positions 1 and 2. -/
theorem c5_breadcrumbs (cfg : AppConfig) (bc : List (String × String)) :
    ((buildBreadcrumbSchema cfg bc).itemListElement.length = bc.length) ∧
    (∀ i p, bc.get? i = some p →
      (buildBreadcrumbSchema cfg bc).itemListElement.get? i =
        some { position := i + 1, name := p.1, item := urlResolve cfg.url p.2 }) ∧
    ((buildBreadcrumbSchema cfg [("Home", "/"), ("Blog", "/blog")]).itemListElement =
      [{ position := 1, name := "Home", item := urlResolve cfg.url "/" },
       { position := 2, name := "Blog", item := urlResolve cfg.url "/blog" }]) := by
  refine ⟨breadcrumbItems_length cfg 0 bc, ?_, rfl⟩
  intro i p h
  have hr := breadcrumbItems_get cfg bc 0 i p h
  rw [show (0 : Nat) + i + 1 = i + 1 from by omega] at hr
  exact hr

/-- C5 witness: the second Home/Blog breadcrumb has position 2 and the
blog URL resolved against the site URL. -/
theorem c5_breadcrumbs_witness :
    (buildBreadcrumbSchema sampleConfig [("Home", "/"), ("Blog", "/blog")]).itemListElement.get? 1 =
      some { position := 2, name := "Blog", item := urlResolve sampleConfig.url "/blog" } :=
  (c5_breadcrumbs sampleConfig [("Home", "/"), ("Blog", "/blog")]).2.1 1 ("Blog", "/blog") rfl
